import Mathlib

/-!
Verification of the credential-inference, credential-collection and
per-user session-management core of the mcp-client-slackbot repository.

The Python source is shallowly embedded: Python dictionaries become
insertion-ordered association lists (`List (key × value)`) with the
update-in-place / append-if-new semantics of `dict` assignment, Python
strings become Lean `String` (ASCII case mapping, which coincides with
Python `str.upper`/`str.lower`/`str.title` on the ASCII-only data the
code handles), and the suffix-anchored regular expressions
`re.match(".*(A|B)SUF$", s)` of `mcp_metadata.py` become suffix tests
(the patterns contain no other regex operators; `.`-vs-newline
differences do not arise for environment-variable names).
-/

namespace MCPBot

/-! ## String helpers (Python `str` operations, ASCII) -/

/-- `leadsWith l pat`: `pat` is an initial segment of `l`. -/
def leadsWith : List Char → List Char → Bool
  | _, [] => true
  | [], _ :: _ => false
  | c :: cs, p :: ps => c == p && leadsWith cs ps

/-- `hasSub l pat`: `pat` occurs as a contiguous sublist of `l`
(Python `pat in l`). -/
def hasSub : List Char → List Char → Bool
  | [], pat => pat.isEmpty
  | c :: cs, pat => leadsWith (c :: cs) pat || hasSub cs pat

/-- Python `marker in value` on strings. -/
def strContainsSub (s pat : String) : Bool := hasSub s.data pat.data

/-- `strEndsWith s pat`: `pat` is a final segment of `s`. -/
def strEndsWith (s pat : String) : Bool := leadsWith s.data.reverse pat.data.reverse

/-- Python `str.upper` (ASCII). -/
def strUpper (s : String) : String := ⟨s.data.map Char.toUpper⟩

def pyTitleGo : Bool → List Char → List Char
  | _, [] => []
  | prevAlpha, c :: cs =>
    if c.isAlpha then
      (if prevAlpha then c.toLower else c.toUpper) :: pyTitleGo true cs
    else c :: pyTitleGo false cs

/-- Python `str.title` (ASCII): the first letter of every maximal
letter-run is upper-cased, the rest lower-cased. -/
def pyTitle (s : String) : String := ⟨pyTitleGo false s.data⟩

def splitCharGo (sep : Char) : List Char → List (List Char)
  | [] => [[]]
  | c :: cs =>
    let r := splitCharGo sep cs
    if c == sep then [] :: r
    else match r with
      | [] => [[c]]
      | w :: ws => (c :: w) :: ws

/-- Python `s.split(sep)` for a one-character separator. -/
def strSplit (s : String) (sep : Char) : List String :=
  (splitCharGo sep s.data).map (fun l => ⟨l⟩)

/-- Python `sep.join(ws)`. -/
def joinWith (sep : String) : List String → String
  | [] => ""
  | [w] => w
  | w :: ws => w ++ sep ++ joinWith sep ws

/-- Python `s.replace("_", " ")` (single-character pattern). -/
def replaceUnderscores (s : String) : String :=
  ⟨s.data.map (fun c => if c == '_' then ' ' else c)⟩

/-! ## `services/mcp_metadata.py` -/

/-- `CredentialRequirement` dataclass of `mcp_metadata.py`. -/
structure CredentialRequirement where
  type : String
  name : String
  description : String
  required : Bool := true
  env_var : Option String := none
  validation_regex : Option String := none
deriving Repr, DecidableEq

/-- The marker list of `MCPMetadataParser._is_credential_placeholder`. -/
def PLACEHOLDER_MARKERS : List String :=
  ["$\x7b", "\x7b\x7b", "<", "[", "PLACEHOLDER", "YOUR_", "INSERT_",
   "CHANGE_ME", "REQUIRED", "NEEDED"]

/-- `MCPMetadataParser._is_credential_placeholder`:
`any(marker in value.upper() for marker in placeholders) or value == ""`. -/
def isCredentialPlaceholder (value : String) : Bool :=
  PLACEHOLDER_MARKERS.any (fun marker => strContainsSub (strUpper value) marker)
    || value == ""

/-- `MCPMetadataParser.KNOWN_CREDENTIAL_PATTERNS`, in dict insertion
order; each suffix-anchored regex is rendered as its list of accepted
suffixes. -/
def KNOWN_CREDENTIAL_PATTERNS : List (String × List String) :=
  [("oauth_token", ["OAUTH_TOKEN", "ACCESS_TOKEN"]),
   ("api_key", ["_API_KEY", "_KEY", "_TOKEN"]),
   ("username", ["USERNAME", "USER", "LOGIN"]),
   ("password", ["PASSWORD", "PASS", "SECRET"]),
   ("url", ["URL", "ENDPOINT", "HOST"]),
   ("database", ["DATABASE_NAME", "DATABASE_URL", "DATABASE_CONNECTION",
                 "DB_NAME", "DB_URL", "DB_CONNECTION"])]

/-- `MCPMetadataParser._detect_credential_type`: first pattern (in
declaration order) matching the upper-cased key wins, else `"generic"`. -/
def detectCredentialType (env_var : String) : String :=
  let up := strUpper env_var
  match KNOWN_CREDENTIAL_PATTERNS.find? (fun p => p.2.any (fun suf => strEndsWith up suf)) with
  | some p => p.1
  | none => "generic"

/-- `prefixes_to_remove` of `_extract_credential_name`. -/
def NAME_LEAD_DROPS : List String := ["MCP", "SERVER", "CLIENT", "API"]

/-- `suffixes_to_remove` of `_extract_credential_name`. -/
def NAME_TAIL_DROPS : List String := ["KEY", "TOKEN", "SECRET", "PASS", "PASSWORD"]

/-- `MCPMetadataParser._extract_credential_name`. -/
def extractCredentialName (env_var : String) : String :=
  let words := strSplit env_var '_'
  let filtered := words.filter (fun w =>
    !(NAME_LEAD_DROPS.contains (strUpper w)) && !(NAME_TAIL_DROPS.contains (strUpper w)))
  if filtered.isEmpty then pyTitle (replaceUnderscores env_var)
  else pyTitle (joinWith " " filtered)

/-- One entry of `server_config["required_credentials"]`; optional
fields model the `.get(..., default)` accesses (`name` is accessed
unconditionally). -/
structure ExplicitCredSpec where
  name : String
  type : Option String := none
  description : Option String := none
  required : Option Bool := none
  env_var : Option String := none
  validation_regex : Option String := none
deriving Repr, DecidableEq

/-- The `CredentialRequirement(...)` built from an explicit entry in
`parse_server_metadata`. -/
def toRequirement (c : ExplicitCredSpec) : CredentialRequirement :=
  { type := c.type.getD "generic"
  , name := c.name
  , description := c.description.getD ("Credential: " ++ c.name)
  , required := c.required.getD true
  , env_var := c.env_var
  , validation_regex := c.validation_regex }

/-- The parts of a server config that `parse_server_metadata` reads:
the optional `required_credentials` list and the `env` dict
(insertion-ordered association list). -/
structure ServerConfig where
  required_credentials : Option (List ExplicitCredSpec) := none
  env : List (String × String) := []
deriving Repr, DecidableEq

/-- The synthesized `CredentialRequirement` for a placeholder env key. -/
def inferredRequirement (env_var : String) : CredentialRequirement :=
  { type := detectCredentialType env_var
  , name := extractCredentialName env_var
  , description := "Environment variable: " ++ env_var
  , required := true
  , env_var := some env_var }

/-- The body of the `for env_var, value in env_vars.items()` loop of
`parse_server_metadata`, acting on the accumulated requirement list. -/
def parseStep (acc : List CredentialRequirement) (kv : String × String) :
    List CredentialRequirement :=
  if isCredentialPlaceholder kv.2 then
    if acc.any (fun c => c.env_var == some kv.1) then acc
    else acc ++ [inferredRequirement kv.1]
  else acc

/-- The explicitly declared requirements, copied verbatim in order. -/
def explicitRequirements (cfg : ServerConfig) : List CredentialRequirement :=
  match cfg.required_credentials with
  | none => []
  | some creds => creds.map toRequirement

/-- `MCPMetadataParser.parse_server_metadata`. -/
def parseServerMetadata (cfg : ServerConfig) : List CredentialRequirement :=
  cfg.env.foldl parseStep (explicitRequirements cfg)

/-- Case-insensitive containment of a marker in a value (both sides
upper-cased). -/
def caseInsensContains (v m : String) : Bool :=
  strContainsSub (strUpper v) (strUpper m)

/-- The env-var names carried by a requirement list (explicit entries
without an `env_var` contribute nothing). -/
def envVarsOf (l : List CredentialRequirement) : List String :=
  l.filterMap (fun c => c.env_var)

/-- The inferred tail produced by the env loop of
`parse_server_metadata`, relative to the already-accumulated list
`acc`: placeholder keys are visited in iteration order and a key whose
env-var name is already carried by `acc` or by an earlier inferred
entry is skipped. -/
def inferLoop (acc : List CredentialRequirement) :
    List (String × String) → List CredentialRequirement
  | [] => []
  | kv :: rest =>
    if isCredentialPlaceholder kv.2 then
      if acc.any (fun c => c.env_var == some kv.1) then inferLoop acc rest
      else inferredRequirement kv.1 :: inferLoop (acc ++ [inferredRequirement kv.1]) rest
    else inferLoop acc rest

theorem foldl_parseStep_eq (env : List (String × String)) :
    ∀ acc, env.foldl parseStep acc = acc ++ inferLoop acc env := by
  induction env with
  | nil => intro acc; simp [inferLoop]
  | cons kv rest ih =>
    intro acc
    simp only [List.foldl_cons, parseStep, inferLoop]
    by_cases h1 : isCredentialPlaceholder kv.2
    · by_cases h2 : acc.any (fun c => c.env_var == some kv.1)
      · simp [h1, h2, ih]
      · simp [h1, h2, ih, List.append_assoc]
    · simp [h1, ih]

theorem mem_envVarsOf {k : String} {l : List CredentialRequirement} :
    k ∈ envVarsOf l ↔ l.any (fun c => c.env_var == some k) = true := by
  simp [envVarsOf, List.mem_filterMap, List.any_eq_true]

theorem inferLoop_nodup (env : List (String × String)) :
    ∀ acc, (envVarsOf acc).Nodup → (envVarsOf (acc ++ inferLoop acc env)).Nodup := by
  induction env with
  | nil => intro acc h; simpa [inferLoop] using h
  | cons kv rest ih =>
    intro acc h
    simp only [inferLoop]
    by_cases h1 : isCredentialPlaceholder kv.2
    · by_cases h2 : acc.any (fun c => c.env_var == some kv.1)
      · simpa [h1, h2] using ih acc h
      · have hnotmem : kv.1 ∉ envVarsOf acc := by
          rw [mem_envVarsOf]; simpa using h2
        have hacc : (envVarsOf (acc ++ [inferredRequirement kv.1])).Nodup := by
          simp only [envVarsOf, List.filterMap_append]
          rw [List.nodup_append]
          refine ⟨h, by simp [inferredRequirement], ?_⟩
          intro a ha hb
          simp only [List.filterMap_cons, inferredRequirement, List.filterMap_nil] at hb
          simp only [List.mem_singleton] at hb
          exact hnotmem (hb ▸ ha)
        have := ih (acc ++ [inferredRequirement kv.1]) hacc
        simpa [h1, h2, List.append_assoc] using this
    · simpa [h1] using ih acc h

/-- A config declaring two explicit requirements that carry the same
env-var name. -/
def dupEnvVarConfig : ServerConfig :=
  { required_credentials := some
      [{ name := "a", env_var := some "X" },
       { name := "b", env_var := some "X" }]
  , env := [] }

/-- C4 counterexample: the claim says no two requirements in the output
share the same environment-variable name, but explicit requirements are
copied verbatim with no duplicate check among themselves, so a config
declaring two explicit entries with env-var `"X"` yields an output whose
env-var names are not pairwise distinct. -/
theorem parse_dup_env_var_counterexample :
    ¬ (envVarsOf (parseServerMetadata dupEnvVarConfig)).Nodup := by decide

/-- C4 (amended): the output is the explicitly declared requirements,
verbatim and in declared order, followed by the requirements inferred
from placeholder env keys in iteration order, an env key being skipped
whenever an already-listed requirement (explicit or earlier-inferred)
carries the same env-var name; provided the declared requirements
themselves carry pairwise-distinct env-var names, no two requirements
in the output share an env-var name. -/
theorem parse_order_and_dedup (cfg : ServerConfig)
    (h : (envVarsOf (explicitRequirements cfg)).Nodup) :
    parseServerMetadata cfg =
      explicitRequirements cfg ++ inferLoop (explicitRequirements cfg) cfg.env
    ∧ (envVarsOf (parseServerMetadata cfg)).Nodup := by
  refine ⟨foldl_parseStep_eq _ _, ?_⟩
  rw [parseServerMetadata, foldl_parseStep_eq]
  exact inferLoop_nodup _ _ h

/-- Witness for `parse_order_and_dedup` at a concrete config with one
explicit requirement and a two-key env. -/
theorem parse_order_and_dedup_witness :
    (envVarsOf (explicitRequirements
        { required_credentials := some [{ name := "Primary", env_var := some "PRIMARY_API_KEY" }]
        , env := [("PRIMARY_API_KEY", "$\x7bPRIMARY_API_KEY\x7d"), ("SECONDARY_TOKEN", "")] })).Nodup
    ∧ ((parseServerMetadata
        { required_credentials := some [{ name := "Primary", env_var := some "PRIMARY_API_KEY" }]
        , env := [("PRIMARY_API_KEY", "$\x7bPRIMARY_API_KEY\x7d"), ("SECONDARY_TOKEN", "")] } =
      explicitRequirements
        { required_credentials := some [{ name := "Primary", env_var := some "PRIMARY_API_KEY" }]
        , env := [("PRIMARY_API_KEY", "$\x7bPRIMARY_API_KEY\x7d"), ("SECONDARY_TOKEN", "")] } ++
      inferLoop (explicitRequirements
        { required_credentials := some [{ name := "Primary", env_var := some "PRIMARY_API_KEY" }]
        , env := [("PRIMARY_API_KEY", "$\x7bPRIMARY_API_KEY\x7d"), ("SECONDARY_TOKEN", "")] })
        [("PRIMARY_API_KEY", "$\x7bPRIMARY_API_KEY\x7d"), ("SECONDARY_TOKEN", "")])
    ∧ (envVarsOf (parseServerMetadata
        { required_credentials := some [{ name := "Primary", env_var := some "PRIMARY_API_KEY" }]
        , env := [("PRIMARY_API_KEY", "$\x7bPRIMARY_API_KEY\x7d"), ("SECONDARY_TOKEN", "")] })).Nodup) :=
  ⟨by decide, parse_order_and_dedup _ (by decide)⟩

/-- C5: placeholder detection holds exactly when the value is empty or
case-insensitively contains one of the ten markers; the literal values
`"fixed_value"`, `"true"` and `"http://example.com"` are never flagged. -/
theorem placeholder_detection_spec (v : String) :
    (isCredentialPlaceholder v = true ↔
      v = "" ∨ ∃ m ∈ PLACEHOLDER_MARKERS, caseInsensContains v m = true)
    ∧ isCredentialPlaceholder "fixed_value" = false
    ∧ isCredentialPlaceholder "true" = false
    ∧ isCredentialPlaceholder "http://example.com" = false := by
  refine ⟨?_, by decide, by decide, by decide⟩
  have hfix : ∀ m ∈ PLACEHOLDER_MARKERS, strUpper m = m := by decide
  unfold isCredentialPlaceholder
  rw [Bool.or_eq_true, List.any_eq_true, beq_iff_eq]
  constructor
  · rintro (⟨m, hm, hc⟩ | h)
    · exact Or.inr ⟨m, hm, by unfold caseInsensContains; rw [hfix m hm]; exact hc⟩
    · exact Or.inl h
  · rintro (h | ⟨m, hm, hc⟩)
    · exact Or.inr h
    · refine Or.inl ⟨m, hm, ?_⟩
      unfold caseInsensContains at hc
      rwa [hfix m hm] at hc

/-- C6: the placeholder key `"JIRA_API_KEY"` is classified `api_key`
with display name `"Jira"`, and `"GITHUB_ACCESS_TOKEN"` is classified
`oauth_token` because the oauth/access-token pattern heads the ordered
pattern list and wins over the generic `_TOKEN` suffix of the `api_key`
pattern, which the key also matches. -/
theorem known_key_classification :
    detectCredentialType "JIRA_API_KEY" = "api_key"
    ∧ extractCredentialName "JIRA_API_KEY" = "Jira"
    ∧ detectCredentialType "GITHUB_ACCESS_TOKEN" = "oauth_token"
    ∧ KNOWN_CREDENTIAL_PATTERNS.map Prod.fst =
        ["oauth_token", "api_key", "username", "password", "url", "database"]
    ∧ strEndsWith (strUpper "GITHUB_ACCESS_TOKEN") "_TOKEN" = true := by decide

/-! ## Python `dict` as insertion-ordered association list -/

/-- `d[k]` lookup returning `None` on a missing key (`k in d` tests). -/
def dictGet? (l : List (String × α)) (k : String) : Option α :=
  (l.find? (fun kv => kv.1 == k)).map Prod.snd

/-- `d[k] = v`: replaces the value in place when the key is present
(keeping its position, as CPython dicts do), else appends. -/
def dictSet (l : List (String × α)) (k : String) (v : α) : List (String × α) :=
  if l.any (fun kv => kv.1 == k) then
    l.map (fun kv => if kv.1 == k then (k, v) else kv)
  else l ++ [(k, v)]

/-- `del d[k]`. -/
def dictDel (l : List (String × α)) (k : String) : List (String × α) :=
  l.filter (fun kv => !(kv.1 == k))

/-! ## `services/slack_auth.py`

Time is modelled in whole seconds (`int(datetime.utcnow().timestamp())`
truncates to the second; `created_at` and the expiry comparison use the
same clock).  The Slack transport outcomes (`chat_postEphemeral`,
`chat_update` raising `SlackApiError` or not) are oracle parameters;
an uncaught Python exception (`IndexError` from an out-of-range
`credential_index`) is modelled as `none`.  Negative Python indices do
not arise from the UI and are not modelled (indices are `Nat`). -/

/-- One entry of `pending_auth_flows`. -/
structure FlowData where
  user_slack_id : String
  server_name : String
  credentials : List CredentialRequirement
  collected : List (String × String)
  created_at : Nat
  current_index : Nat
deriving Repr, DecidableEq

/-- `SlackAuthService` state: the pending-flow table plus the trace of
`_save_collected_credentials` handoffs `(user, server, collected)` to
the credential store. -/
structure AuthState where
  pending : List (String × FlowData)
  saves : List (String × String × List (String × String))
deriving Repr, DecidableEq

/-- `auth_flow_timeout = timedelta(minutes=10)`, in seconds. -/
def AUTH_FLOW_TIMEOUT : Nat := 600

/-- `SlackAuthService._cleanup_expired_flows`: drops flows with
`current_time - created_at > timeout` (strict). -/
def cleanupExpiredFlows (now : Nat) (pending : List (String × FlowData)) :
    List (String × FlowData) :=
  pending.filter (fun kv => !(decide (AUTH_FLOW_TIMEOUT < now - kv.2.created_at)))

/-- The flow identifier
`f"{user_slack_id}_{server_name}_{int(datetime.utcnow().timestamp())}"`. -/
def flowIdOf (u s : String) (now : Nat) : String :=
  u ++ "_" ++ s ++ "_" ++ toString now

/-- `SlackAuthService.request_credentials`.  `postOk` is the outcome of
`chat_postEphemeral`; result `none` means the Python call raised
(`IndexError` on an empty requirement list — the table entry stays — or
the re-raised `SlackApiError` — the entry is deleted first). -/
def requestCredentials (now : Nat) (u s : String)
    (missing : List CredentialRequirement) (postOk : Bool) (st : AuthState) :
    Option String × AuthState :=
  let st1 := { st with pending := cleanupExpiredFlows now st.pending }
  let fid := flowIdOf u s now
  let fd : FlowData :=
    { user_slack_id := u, server_name := s, credentials := missing
    , collected := [], created_at := now, current_index := 0 }
  let st2 := { st1 with pending := dictSet st1.pending fid fd }
  if missing.isEmpty then (none, st2)
  else if postOk then (some fid, st2)
  else (none, { st2 with pending := dictDel st2.pending fid })

/-- The in-place mutation of a pending flow performed by
`handle_credential_submission`: records the value under the given
requirement name and sets the pointer to `credential_index + 1`. -/
def flowAfterSubmit (fd : FlowData) (credName v : String) (idx : Nat) : FlowData :=
  { fd with
    collected := dictSet fd.collected credName v
    current_index := idx + 1 }

/-- `SlackAuthService.handle_credential_submission`.  `chatOk` is the
outcome of the `chat_update` transport call (its failure in the
completion branch is caught and ignored); `none` models the uncaught
`IndexError` when `credential_index` is out of range. -/
def handleCredentialSubmission (fid : String) (idx : Nat) (v : String)
    (chatOk : Bool) (st : AuthState) : Option (Bool × AuthState) :=
  match dictGet? st.pending fid with
  | none => some (false, st)
  | some fd =>
    if h : idx < fd.credentials.length then
      let cred := fd.credentials.get ⟨idx, h⟩
      let fd1 := flowAfterSubmit fd cred.name v idx
      let st1 := { st with pending := dictSet st.pending fid fd1 }
      if fd1.current_index < fd1.credentials.length then
        some (if chatOk then (true, st1) else (false, st1))
      else
        some (true,
          { pending := dictDel st1.pending fid
            saves := st1.saves ++ [(fd1.user_slack_id, fd1.server_name, fd1.collected)] })
    else none

/-- C1 (amended): a submission for an unknown `flowId` fails with no
side effects, but there is no guard comparing `requirementIndex` with
the flow's current pointer: any in-range index is accepted — the value
is recorded under the indexed requirement's display name and the
pointer is set to `index + 1` regardless of its previous value (shown
here for the mid-flow case `index + 1 < length`). -/
theorem submit_guard_amended (st : AuthState) (fid : String) (idx : Nat)
    (v : String) (chatOk : Bool) :
    (dictGet? st.pending fid = none →
      handleCredentialSubmission fid idx v chatOk st = some (false, st))
    ∧ (∀ fd, dictGet? st.pending fid = some fd →
        ∀ h : idx < fd.credentials.length, idx + 1 < fd.credentials.length →
        handleCredentialSubmission fid idx v chatOk st =
          some (chatOk,
            { st with
              pending :=
                dictSet st.pending fid
                  (flowAfterSubmit fd (fd.credentials.get ⟨idx, h⟩).name v idx) })) := by
  constructor
  · intro hnone
    simp [handleCredentialSubmission, hnone]
  · intro fd hfd h hlt
    cases chatOk <;> simp [handleCredentialSubmission, hfd, h, hlt, flowAfterSubmit]

/-- The two-requirement flow used in the C1 counterexample, with the
current pointer at 0. -/
def c1Flow : FlowData :=
  { user_slack_id := "u", server_name := "s"
  , credentials :=
      [{ type := "api_key", name := "A", description := "dA" },
       { type := "password", name := "B", description := "dB" }]
  , collected := [], created_at := 0, current_index := 0 }

def c1State : AuthState := { pending := [("u_s_0", c1Flow)], saves := [] }

/-- C1 counterexample: on a known flow whose current pointer is 0, a
submission for index 1 is not rejected — it returns success, records
the value, and (because `1 + 1` reaches the end) even completes the
flow and hands a one-entry map to the credential store. -/
theorem submit_mismatched_index_counterexample :
    c1Flow.current_index = 0
    ∧ dictGet? c1State.pending "u_s_0" = some c1Flow
    ∧ handleCredentialSubmission "u_s_0" 1 "v" true c1State =
        some (true, { pending := [], saves := [("u", "s", [("B", "v")])] }) := by decide

/-- Witness for `submit_guard_amended`: the unknown-flow branch at an
empty table, and the accepted-submission branch at a live three-step
flow with pointer 0 and submitted index 0. -/
theorem submit_guard_amended_witness :
    handleCredentialSubmission "x" 0 "v" true { pending := [], saves := [] } =
      some (false, { pending := [], saves := [] })
    ∧ handleCredentialSubmission "u_s_0" 0 "w" true c1State =
        some (true,
          { c1State with
            pending :=
              dictSet c1State.pending "u_s_0"
                (flowAfterSubmit c1Flow (c1Flow.credentials.get ⟨0, by decide⟩).name "w" 0) }) :=
  ⟨(submit_guard_amended { pending := [], saves := [] } "x" 0 "v" true).1 (by decide),
   (submit_guard_amended c1State "u_s_0" 0 "w" true).2 c1Flow (by decide) (by decide) (by decide)⟩

/-- C3: starting a two-requirement flow on an empty table and submitting
indices 0 then 1 completes it: the second submission succeeds, hands the
credential store exactly one save event carrying the full collected map
`{r0.name ↦ v0, r1.name ↦ v1}`, retires the flow from the table, and any
third submission on the same flowId fails. -/
theorem two_step_flow_completes (u s : String) (now : Nat)
    (r0 r1 : CredentialRequirement) (v0 v1 : String)
    (idx3 : Nat) (v3 : String) (chatOk3 : Bool) :
    requestCredentials now u s [r0, r1] true ⟨[], []⟩ =
      (some (flowIdOf u s now),
       ⟨[(flowIdOf u s now, ⟨u, s, [r0, r1], [], now, 0⟩)], []⟩)
    ∧ handleCredentialSubmission (flowIdOf u s now) 0 v0 true
        ⟨[(flowIdOf u s now, ⟨u, s, [r0, r1], [], now, 0⟩)], []⟩ =
      some (true, ⟨[(flowIdOf u s now, ⟨u, s, [r0, r1], [(r0.name, v0)], now, 1⟩)], []⟩)
    ∧ handleCredentialSubmission (flowIdOf u s now) 1 v1 true
        ⟨[(flowIdOf u s now, ⟨u, s, [r0, r1], [(r0.name, v0)], now, 1⟩)], []⟩ =
      some (true, ⟨[], [(u, s, dictSet [(r0.name, v0)] r1.name v1)]⟩)
    ∧ handleCredentialSubmission (flowIdOf u s now) idx3 v3 chatOk3
        ⟨[], [(u, s, dictSet [(r0.name, v0)] r1.name v1)]⟩ =
      some (false, ⟨[], [(u, s, dictSet [(r0.name, v0)] r1.name v1)]⟩) := by
  refine ⟨?_, ?_, ?_, ?_⟩
  · simp [requestCredentials, cleanupExpiredFlows, dictSet]
  · simp [handleCredentialSubmission, flowAfterSubmit, dictGet?, dictSet, dictDel]
  · simp [handleCredentialSubmission, flowAfterSubmit, dictGet?, dictSet, dictDel]
  · simp [handleCredentialSubmission, dictGet?]

/-- C10: the flow identifier is the user id, server name and
whole-second creation time joined by underscores; a second
`request_credentials` for the same user and server whose creation time
truncates to the same second produces the identical identifier and
overwrites the pending entry — here a mid-flight flow with one
collected value is replaced by the fresh flow with an empty collected
map and pointer 0. -/
theorem same_second_flow_overwrite (u s : String) (now : Nat)
    (r0 r1 : CredentialRequirement) (v0 : String)
    (r2 : CredentialRequirement) (rs2 : List CredentialRequirement) :
    flowIdOf u s now = u ++ "_" ++ s ++ "_" ++ toString now
    ∧ requestCredentials now u s (r2 :: rs2) true
        ⟨[(flowIdOf u s now, ⟨u, s, [r0, r1], [(r0.name, v0)], now, 1⟩)], []⟩ =
      (some (flowIdOf u s now),
       ⟨[(flowIdOf u s now, ⟨u, s, r2 :: rs2, [], now, 0⟩)], []⟩) := by
  refine ⟨rfl, ?_⟩
  simp [requestCredentials, cleanupExpiredFlows, dictSet, AUTH_FLOW_TIMEOUT]

/-! ## `services/user_server.py`

The subprocess/transport is external: the outcome of
`UserMCPServer.initialize`'s handshake and of the bounded-time
`session.list_tools()` query are oracle parameters.  `self.session` and
`self.exit_stack` are modelled by the Booleans "is not `None`"; the
tool-list cache keeps its `Optional` shape.  `list_tools` additionally
reports whether the live session was queried (the `await` branch was
entered), so that "returns the cached list without querying" is a
statement of the model. -/

structure SlackUser where
  slack_user_id : String
deriving Repr, DecidableEq

structure MCPServerCfg where
  name : String
  command : String := ""
  args : List String := []
  env : List (String × String) := []
deriving Repr, DecidableEq

structure ToolInfo where
  name : String
  description : String
  inputSchema : String
deriving Repr, DecidableEq

/-- `UserMCPServer` instance state. -/
structure UserMCPServerSt where
  user : SlackUser
  server_config : MCPServerCfg
  credentials : List (String × String)
  hasSession : Bool
  hasExitStack : Bool
  toolsCache : Option (List ToolInfo)
deriving Repr, DecidableEq

/-- `UserMCPServer.__init__`. -/
def freshServer (user : SlackUser) (cfg : MCPServerCfg)
    (creds : List (String × String)) : UserMCPServerSt :=
  { user := user, server_config := cfg, credentials := creds
  , hasSession := false, hasExitStack := false, toolsCache := none }

/-- `UserMCPServer.server_id`. -/
def serverIdOf (user : SlackUser) (cfg : MCPServerCfg) : String :=
  user.slack_user_id ++ "_" ++ cfg.name

/-- `UserMCPServer.cleanup`: always clears the tool cache; releases the
transport only when an exit stack is held. -/
def cleanupServer (srv : UserMCPServerSt) : UserMCPServerSt :=
  let srv1 := { srv with toolsCache := none }
  if srv1.hasExitStack then { srv1 with hasExitStack := false, hasSession := false }
  else srv1

/-- `UserMCPServer.initialize`; `ok` is the outcome of the subprocess
start and handshake.  On success the session is live and the cache
reset; on any failure `cleanup` has run and `False` is returned. -/
def initializeServer (srv : UserMCPServerSt) (ok : Bool) : Bool × UserMCPServerSt :=
  if ok then
    (true, { srv with hasExitStack := true, hasSession := true, toolsCache := none })
  else
    (false, cleanupServer { srv with hasExitStack := true })

/-- `UserMCPServer.list_tools`; `query` is the outcome of the
bounded-time `session.list_tools()` call (`Except.error` covering both
timeout and transport error).  Returns the tool list, the new handle
state, and whether the live session was queried. -/
def listToolsServer (srv : UserMCPServerSt) (query : Except Unit (List ToolInfo)) :
    List ToolInfo × UserMCPServerSt × Bool :=
  if !srv.hasSession then ([], srv, false)
  else
    match srv.toolsCache with
    | some cached => (cached, srv, false)
    | none =>
      match query with
      | Except.ok tools => (tools, { srv with toolsCache := some tools }, true)
      | Except.error _ => ([], srv, true)

/-- `UserServerManager` state: the `user_servers` dict. -/
structure ManagerSt where
  user_servers : List (String × UserMCPServerSt)
deriving Repr, DecidableEq

/-- The registry lookup of `get_or_create_server`, up to the
`await user_server.initialize()` suspension point (this segment runs
atomically under the cooperative scheduler). -/
def gocCheck (m : ManagerSt) (sid : String) : Option UserMCPServerSt :=
  dictGet? m.user_servers sid

/-- The rest of `get_or_create_server` after the registry miss: run
`initialize` and, on success, register the handle.  The `Nat` counts
underlying initializations performed (always 1 here). -/
def gocFinish (m : ManagerSt) (sid : String) (fresh : UserMCPServerSt) (initOk : Bool) :
    Option UserMCPServerSt × ManagerSt × Nat :=
  let r := initializeServer fresh initOk
  if r.1 then (some r.2, ⟨dictSet m.user_servers sid r.2⟩, 1)
  else (none, m, 1)

/-- `UserServerManager.get_or_create_server` (sequential semantics):
the cached handle is returned unconditionally when present, else a
fresh handle is initialized and registered on success. -/
def getOrCreateServer (m : ManagerSt) (user : SlackUser) (cfg : MCPServerCfg)
    (creds : List (String × String)) (initOk : Bool) :
    Option UserMCPServerSt × ManagerSt × Nat :=
  match gocCheck m (serverIdOf user cfg) with
  | some srv => (some srv, m, 0)
  | none => gocFinish m (serverIdOf user cfg) (freshServer user cfg creds) initOk

/-- `UserServerManager.cleanup_user_servers`: pops every entry whose
key starts with `user.slack_user_id + "_"` and runs `cleanup` on it.
Returns the new registry and the popped, cleaned entries. -/
def cleanupUserServers (m : ManagerSt) (user : SlackUser) :
    ManagerSt × List (String × UserMCPServerSt) :=
  let pre := user.slack_user_id ++ "_"
  (⟨m.user_servers.filter (fun kv => !(leadsWith kv.1.data pre.data))⟩,
   (m.user_servers.filter (fun kv => leadsWith kv.1.data pre.data)).map
     (fun kv => (kv.1, cleanupServer kv.2)))

theorem leadsWith_append (l l' : List Char) : leadsWith (l ++ l') l = true := by
  induction l with
  | nil => simp [leadsWith]
  | cons c cs ih => simp [leadsWith, ih]

/-- C7: once the tool-list cache is populated (with any list, the empty
one included) `list_tools` returns it with no query and no state
change, whatever the transport would do; `cleanup` clears the cache;
and when the cache is unset a failing query yields the empty list and
leaves the cache unset, so that a subsequent call queries again and
populates the cache on success. -/
theorem list_tools_cache_invariant (srv : UserMCPServerSt)
    (tl : List ToolInfo) (q : Except Unit (List ToolInfo)) :
    (srv.toolsCache = some tl → srv.hasSession = true →
      listToolsServer srv q = (tl, srv, false))
    ∧ (cleanupServer srv).toolsCache = none
    ∧ (srv.toolsCache = none → srv.hasSession = true →
        listToolsServer srv (Except.error ()) = ([], srv, true))
    ∧ (srv.toolsCache = none → srv.hasSession = true →
        listToolsServer srv (Except.ok tl) =
          (tl, { srv with toolsCache := some tl }, true)) := by
  refine ⟨?_, ?_, ?_, ?_⟩
  · intro hc hs; simp [listToolsServer, hc, hs]
  · simp only [cleanupServer]
    by_cases h : srv.hasExitStack <;> simp [h]
  · intro hc hs; simp [listToolsServer, hc, hs]
  · intro hc hs; simp [listToolsServer, hc, hs]

/-- Witness for `list_tools_cache_invariant` at a live handle holding a
one-tool cache. -/
theorem list_tools_cache_invariant_witness :
    listToolsServer
        ⟨⟨"u"⟩, { name := "srv" }, [], true, true, some [⟨"t", "d", "s"⟩]⟩
        (Except.error ()) =
      ([⟨"t", "d", "s"⟩], ⟨⟨"u"⟩, { name := "srv" }, [], true, true, some [⟨"t", "d", "s"⟩]⟩, false)
    ∧ listToolsServer ⟨⟨"u"⟩, { name := "srv" }, [], true, true, none⟩ (Except.error ()) =
      ([], ⟨⟨"u"⟩, { name := "srv" }, [], true, true, none⟩, true) :=
  ⟨(list_tools_cache_invariant ⟨⟨"u"⟩, { name := "srv" }, [], true, true, some [⟨"t", "d", "s"⟩]⟩
      [⟨"t", "d", "s"⟩] (Except.error ())).1 (by decide) (by decide),
   ((list_tools_cache_invariant ⟨⟨"u"⟩, { name := "srv" }, [], true, true, none⟩
      [] (Except.error ())).2.2.1 (by decide) (by decide))⟩

/-- C8: `get_or_create_server` returns a registered handle
unconditionally — whatever credentials are supplied — performing no
initialization and leaving the registry unchanged; on a miss it
initializes a fresh handle, registering and returning it on success,
and on failure returns `none` with the registry unchanged (the function
is total: no exception escapes). -/
theorem get_or_create_server_spec (m : ManagerSt) (user : SlackUser)
    (cfg : MCPServerCfg) (creds : List (String × String)) (initOk : Bool) :
    (∀ srv, dictGet? m.user_servers (serverIdOf user cfg) = some srv →
      getOrCreateServer m user cfg creds initOk = (some srv, m, 0))
    ∧ (dictGet? m.user_servers (serverIdOf user cfg) = none →
        getOrCreateServer m user cfg creds true =
          (some ⟨user, cfg, creds, true, true, none⟩,
           ⟨dictSet m.user_servers (serverIdOf user cfg) ⟨user, cfg, creds, true, true, none⟩⟩, 1)
        ∧ getOrCreateServer m user cfg creds false = (none, m, 1)) := by
  constructor
  · intro srv hsrv
    simp [getOrCreateServer, gocCheck, hsrv]
  · intro hnone
    constructor <;>
      simp [getOrCreateServer, gocCheck, gocFinish, hnone, initializeServer, freshServer]

/-- Witness for `get_or_create_server_spec`: hit on a one-entry
registry, then miss on the empty registry with both init outcomes. -/
theorem get_or_create_server_spec_witness :
    getOrCreateServer ⟨[("u_srv", freshServer ⟨"u"⟩ { name := "srv" } [])]⟩
        ⟨"u"⟩ { name := "srv" } [("k", "v2")] true =
      (some (freshServer ⟨"u"⟩ { name := "srv" } []),
       ⟨[("u_srv", freshServer ⟨"u"⟩ { name := "srv" } [])]⟩, 0)
    ∧ getOrCreateServer ⟨[]⟩ ⟨"u"⟩ { name := "srv" } [] false = (none, ⟨[]⟩, 1) :=
  ⟨(get_or_create_server_spec ⟨[("u_srv", freshServer ⟨"u"⟩ { name := "srv" } [])]⟩
      ⟨"u"⟩ { name := "srv" } [("k", "v2")] true).1
        (freshServer ⟨"u"⟩ { name := "srv" } []) (by decide),
   ((get_or_create_server_spec ⟨[]⟩ ⟨"u"⟩ { name := "srv" } [] false).2 (by decide)).2⟩

/-- A registry holding, for user `"a"`, a session with server `"b_c"`
(registered through `get_or_create_server`, so keyed `"a_b_c"`). -/
def collideMgr : ManagerSt :=
  (getOrCreateServer ⟨[]⟩ ⟨"a"⟩ { name := "b_c" } [] true).2.1

/-- C2 counterexample: every session in `collideMgr` belongs to user
`"a"`, yet `cleanup_user_servers` for the distinct user `"a_b"` evicts
and terminates it, because eviction matches on the flat string prefix
`"a_b_"` and the key `"a_b_c"` happens to start with it. -/
theorem cleanup_cross_user_eviction_counterexample :
    (∀ kv ∈ collideMgr.user_servers, kv.2.user.slack_user_id = "a")
    ∧ collideMgr.user_servers ≠ []
    ∧ ("a" : String) ≠ "a_b"
    ∧ (cleanupUserServers collideMgr ⟨"a_b"⟩).1.user_servers = []
    ∧ (cleanupUserServers collideMgr ⟨"a_b"⟩).2.map (fun kv => kv.2.user.slack_user_id)
        = ["a"] := by decide

/-- C2 (amended): `cleanup_user_servers u` evicts exactly the registry
entries whose key string starts with `u.slack_user_id ++ "_"` — each
popped entry is returned in terminated (`cleanup`-applied) form and no
entry under its key survives — and keeps every entry whose key does not
so start, terminating none of them.  Every key `serverIdOf u cfg`
registered for `u` itself starts with that string, so all of `u`'s own
sessions are evicted; but a key of a *different* user may also match
(see the counterexample), so "key starts with `u ++ \"_\"`" does not
coincide with "key's user component equals `u`". -/
theorem cleanup_user_servers_amended (m : ManagerSt) (u : SlackUser) (k : String)
    (srv : UserMCPServerSt) (hmem : (k, srv) ∈ m.user_servers) :
    (leadsWith k.data (u.slack_user_id ++ "_").data = true →
      (k, cleanupServer srv) ∈ (cleanupUserServers m u).2
      ∧ ∀ srv', (k, srv') ∉ (cleanupUserServers m u).1.user_servers)
    ∧ (leadsWith k.data (u.slack_user_id ++ "_").data = false →
      (k, srv) ∈ (cleanupUserServers m u).1.user_servers
      ∧ ∀ srv', (k, srv') ∉ (cleanupUserServers m u).2)
    ∧ ∀ cfg : MCPServerCfg,
        leadsWith (serverIdOf u cfg).data (u.slack_user_id ++ "_").data = true := by
  refine ⟨?_, ?_, ?_⟩
  · intro hlead
    constructor
    · exact List.mem_map_of_mem _ (List.mem_filter.mpr ⟨hmem, hlead⟩)
    · intro srv' hmem'
      have := (List.mem_filter.mp hmem').2
      simp only [Bool.not_eq_true'] at this
      rw [hlead] at this
      exact Bool.noConfusion this
  · intro hlead
    constructor
    · exact List.mem_filter.mpr ⟨hmem, by simp only [hlead, Bool.not_false]⟩
    · intro srv' hmem'
      rcases List.mem_map.mp hmem' with ⟨kv, hkv, heq⟩
      have hpred := (List.mem_filter.mp hkv).2
      have hk : kv.1 = k := congrArg Prod.fst heq
      rw [hk, hlead] at hpred
      exact Bool.false_ne_true hpred
  · intro cfg
    have : (serverIdOf u cfg).data = (u.slack_user_id ++ "_").data ++ cfg.name.data := by
      simp [serverIdOf, String.data_append]
    rw [this]
    exact leadsWith_append _ _

/-- Witness for `cleanup_user_servers_amended` on a two-user registry:
user `"a"`'s entry is evicted in cleaned form, user `"b"`'s entry
survives. -/
theorem cleanup_user_servers_amended_witness :
    ("a_x", cleanupServer (freshServer ⟨"a"⟩ { name := "x" } [])) ∈
      (cleanupUserServers ⟨[("a_x", freshServer ⟨"a"⟩ { name := "x" } []),
                           ("b_x", freshServer ⟨"b"⟩ { name := "x" } [])]⟩ ⟨"a"⟩).2
    ∧ ("b_x", freshServer ⟨"b"⟩ { name := "x" } []) ∈
      (cleanupUserServers ⟨[("a_x", freshServer ⟨"a"⟩ { name := "x" } []),
                           ("b_x", freshServer ⟨"b"⟩ { name := "x" } [])]⟩ ⟨"a"⟩).1.user_servers :=
  ⟨((cleanup_user_servers_amended
      ⟨[("a_x", freshServer ⟨"a"⟩ { name := "x" } []),
        ("b_x", freshServer ⟨"b"⟩ { name := "x" } [])]⟩ ⟨"a"⟩
      "a_x" (freshServer ⟨"a"⟩ { name := "x" } []) (by decide)).1 (by decide)).1,
   ((cleanup_user_servers_amended
      ⟨[("a_x", freshServer ⟨"a"⟩ { name := "x" } []),
        ("b_x", freshServer ⟨"b"⟩ { name := "x" } [])]⟩ ⟨"a"⟩
      "b_x" (freshServer ⟨"b"⟩ { name := "x" } []) (by decide)).2.1 (by decide)).1⟩

/-! ### Concurrency model for `get_or_create_server`

`get_or_create_server` is an `async def` running under asyncio's
cooperative scheduler: the registry lookup and handle construction
(lines up to `await user_server.initialize()`) run atomically, the call
then suspends for the initialization, and registration runs after the
`await` returns.  A call is therefore split into its pre-suspension
phase (`phaseOf`) and its continuation (`runPhase`); the sequential
function is exactly `runPhase` after `phaseOf`
(`getOrCreate_phase_decomposition`), and an interleaving of two calls
may run both `phaseOf`s before either continuation. -/

inductive CallPhase where
  | finished (res : Option UserMCPServerSt)
  | initing (sid : String) (fresh : UserMCPServerSt) (initOk : Bool)
deriving Repr, DecidableEq

/-- The atomic pre-suspension phase of one `get_or_create_server`
call: either it finds a registered handle (and will return it), or it
misses and constructs the fresh handle it will initialize. -/
def phaseOf (m : ManagerSt) (user : SlackUser) (cfg : MCPServerCfg)
    (creds : List (String × String)) (initOk : Bool) : CallPhase :=
  match gocCheck m (serverIdOf user cfg) with
  | some srv => CallPhase.finished (some srv)
  | none => CallPhase.initing (serverIdOf user cfg) (freshServer user cfg creds) initOk

/-- The continuation of one call after its pre-suspension phase, run
against the registry state current at resumption time. -/
def runPhase (m : ManagerSt) : CallPhase → Option UserMCPServerSt × ManagerSt × Nat
  | CallPhase.finished r => (r, m, 0)
  | CallPhase.initing sid fresh ok => gocFinish m sid fresh ok

theorem getOrCreate_phase_decomposition (m : ManagerSt) (user : SlackUser)
    (cfg : MCPServerCfg) (creds : List (String × String)) (initOk : Bool) :
    getOrCreateServer m user cfg creds initOk =
      runPhase m (phaseOf m user cfg creds initOk) := by
  cases h : gocCheck m (serverIdOf user cfg) <;>
    simp [getOrCreateServer, phaseOf, runPhase, h]

/-- The legal schedule in which both calls pass their registry check
before either initialization completes: phase 1, phase 2, continuation
1, continuation 2.  Yields each caller's result and initialization
count, and the final registry. -/
def raceSchedule (m0 : ManagerSt)
    (u1 : SlackUser) (c1 : MCPServerCfg) (cr1 : List (String × String)) (ok1 : Bool)
    (u2 : SlackUser) (c2 : MCPServerCfg) (cr2 : List (String × String)) (ok2 : Bool) :
    (Option UserMCPServerSt × Nat) × (Option UserMCPServerSt × Nat) × ManagerSt :=
  let p1 := phaseOf m0 u1 c1 cr1 ok1
  let p2 := phaseOf m0 u2 c2 cr2 ok2
  let r1 := runPhase m0 p1
  let r2 := runPhase r1.2.1 p2
  ((r1.1, r1.2.2), (r2.1, r2.2.2), r2.2.1)

def raceDemo : (Option UserMCPServerSt × Nat) × (Option UserMCPServerSt × Nat) × ManagerSt :=
  raceSchedule ⟨[]⟩ ⟨"u"⟩ { name := "srv" } [("k", "1")] true
    ⟨"u"⟩ { name := "srv" } [("k", "2")] true

/-- C9 counterexample: two concurrent calls with the same key
`"u_srv"` on an empty registry, interleaved at the `initialize`
suspension point, perform two underlying initializations (not one),
and the two callers receive different handles. -/
theorem concurrent_same_key_race_counterexample :
    serverIdOf ⟨"u"⟩ { name := "srv" } = "u_srv"
    ∧ raceDemo.1.2 + raceDemo.2.1.2 = 2
    ∧ raceDemo.1.1 ≠ raceDemo.2.1.1 := by decide

/-- C9 (amended): `get_or_create_server` takes no lock, so under the
schedule in which both same-key calls check the registry before either
initialization completes, each call performs its own initialization
(two in total), each caller receives its own freshly initialized
handle carrying the credentials it supplied, and the second
registration overwrites the first in the registry. -/
theorem concurrent_same_key_race_behavior (u : SlackUser) (cfg : MCPServerCfg)
    (cr1 cr2 : List (String × String)) :
    raceSchedule ⟨[]⟩ u cfg cr1 true u cfg cr2 true =
      ((some ⟨u, cfg, cr1, true, true, none⟩, 1),
       (some ⟨u, cfg, cr2, true, true, none⟩, 1),
       ⟨[(serverIdOf u cfg, ⟨u, cfg, cr2, true, true, none⟩)]⟩) := by
  simp [raceSchedule, phaseOf, runPhase, gocCheck, gocFinish, initializeServer,
    freshServer, dictGet?, dictSet]

end MCPBot
